import Mathlib

/-!
# Verification of the push-notification gating engine

Shallow embedding of `apps/server/src/services/pushRateLimiter.ts`:
the Redis-backed push rate limiter (the `RATE_LIMIT_SCRIPT` Lua script
together with `PushRateLimiter.checkAndRecord` / `getStatus`) and the
`QuietHoursService` (`isQuietTime`, `shouldSend`, `shouldSendEvent`).

The Redis key pair belonging to one device session is modelled as an
explicit `RedisCounters` record; a missing key is `none`.  Machine numbers
are `Int` / `Nat` (the counters only ever hold small non-negative integers
produced by `INCR`; the caps come from JS numbers, modelled as `Int`).
JavaScript numbers produced by `Number(string)` are modelled by `JSNum`:
`NaN`, the two infinities, and finite values represented exactly as scaled
decimal integers, with comparison helpers matching IEEE semantics (any
comparison against `NaN` is false).
-/

/-! ## Rate limiter: data model -/

/-- Rate limit preferences for a session (`RateLimitPrefs` in the source). -/
structure RateLimitPrefs where
  maxPerMinute : Int
  maxPerHour : Int
deriving Repr, DecidableEq

/-- The two Redis keys scoped to one device session: the minute counter and
the hour counter, each with its value (`none` = key absent) and optional
expiry time in seconds (`none` = no expiry set). -/
structure RedisCounters where
  minuteVal : Option Nat
  minuteTTL : Option Nat
  hourVal : Option Nat
  hourTTL : Option Nat
deriving Repr, DecidableEq

/-- The state in which both keys are absent (fresh windows). -/
def freshState : RedisCounters := ⟨none, none, none, none⟩

/-- Result of the Redis `TTL` command: `-2` if the key does not exist,
`-1` if it exists without expiry, otherwise the remaining seconds. -/
def redisTTL (val : Option Nat) (ttl : Option Nat) : Int :=
  match val with
  | none => -2
  | some _ =>
    match ttl with
    | none => -1
    | some t => (t : Int)

/-- The sextuple returned by `RATE_LIMIT_SCRIPT`:
`[allowed (0/1), minuteCount, hourCount, minuteTTL, hourTTL, exceededLimit]`
with `exceededLimit` 0 = none, 1 = minute, 2 = hour. -/
structure ScriptReply where
  allowed : Nat
  minuteCount : Nat
  hourCount : Nat
  minuteTTL : Int
  hourTTL : Int
  exceeded : Nat
deriving Repr, DecidableEq

/-- The Lua script `RATE_LIMIT_SCRIPT`, executed atomically against the two
keys of one session.  `GET` of an absent key defaults to `'0'`
(`tonumber(redis.call('GET', k) or '0')`); the minute cap is checked first,
then the hour cap; only when both pre-increment counts are strictly below
their caps are both counters incremented, and a counter whose `TTL` was
negative (absent key or no expiry) gets `EXPIRE` of the full window length
as part of the same atomic step. -/
def rateLimitScript (st : RedisCounters) (maxPerMinute maxPerHour : Int) :
    ScriptReply × RedisCounters :=
  let minuteCount := st.minuteVal.getD 0
  let hourCount := st.hourVal.getD 0
  let minuteTTL := redisTTL st.minuteVal st.minuteTTL
  let hourTTL := redisTTL st.hourVal st.hourTTL
  if maxPerMinute ≤ (minuteCount : Int) then
    (⟨0, minuteCount, hourCount, minuteTTL, hourTTL, 1⟩, st)
  else if maxPerHour ≤ (hourCount : Int) then
    (⟨0, minuteCount, hourCount, minuteTTL, hourTTL, 2⟩, st)
  else
    let newMinuteCount := minuteCount + 1
    let minuteTTLOut : Int := if minuteTTL < 0 then 60 else minuteTTL
    let newMinuteTTL : Option Nat := if minuteTTL < 0 then some 60 else st.minuteTTL
    let newHourCount := hourCount + 1
    let hourTTLOut : Int := if hourTTL < 0 then 3600 else hourTTL
    let newHourTTL : Option Nat := if hourTTL < 0 then some 3600 else st.hourTTL
    (⟨1, newMinuteCount, newHourCount, minuteTTLOut, hourTTLOut, 0⟩,
      ⟨some newMinuteCount, newMinuteTTL, some newHourCount, newHourTTL⟩)

/-- Which limit was exceeded, the `'minute' | 'hour'` union in the source. -/
inductive ExceededLimit where
  | minute
  | hour
deriving Repr, DecidableEq

/-- `RateLimitResult` in the source; `exceededLimit` is absent (`none`) on
an allowed result. -/
structure RateLimitResult where
  allowed : Bool
  remainingMinute : Int
  remainingHour : Int
  resetMinuteIn : Int
  resetHourIn : Int
  exceededLimit : Option ExceededLimit
deriving Repr, DecidableEq

/-- `PushRateLimiter.checkAndRecord`: runs the atomic script, then derives
`remaining*` as `Math.max(0, cap - count)` from the returned counts and
`reset*In` as the returned TTL when positive, else the full window length.
On a denial the exceeded dimension's remaining is forced to 0. -/
def checkAndRecord (st : RedisCounters) (prefs : RateLimitPrefs) :
    RateLimitResult × RedisCounters :=
  let r := (rateLimitScript st prefs.maxPerMinute prefs.maxPerHour).1
  let st' := (rateLimitScript st prefs.maxPerMinute prefs.maxPerHour).2
  let remainingMinute : Int := max 0 (prefs.maxPerMinute - (r.minuteCount : Int))
  let remainingHour : Int := max 0 (prefs.maxPerHour - (r.hourCount : Int))
  let resetMinuteIn : Int := if 0 < r.minuteTTL then r.minuteTTL else 60
  let resetHourIn : Int := if 0 < r.hourTTL then r.hourTTL else 3600
  if r.allowed = 0 then
    (⟨false,
      if r.exceeded = 1 then 0 else remainingMinute,
      if r.exceeded = 2 then 0 else remainingHour,
      resetMinuteIn, resetHourIn,
      some (if r.exceeded = 1 then ExceededLimit.minute else ExceededLimit.hour)⟩,
      st')
  else
    (⟨true, remainingMinute, remainingHour, resetMinuteIn, resetHourIn, none⟩, st')

/-- The status record returned by `PushRateLimiter.getStatus`
(`Omit<RateLimitResult, 'allowed' | 'exceededLimit'>`). -/
structure RateLimitStatus where
  remainingMinute : Int
  remainingHour : Int
  resetMinuteIn : Int
  resetHourIn : Int
deriving Repr, DecidableEq

/-- `PushRateLimiter.getStatus`: reads both counters (`parseInt(v ?? '0')`)
and TTLs without mutating anything. -/
def getStatus (st : RedisCounters) (prefs : RateLimitPrefs) : RateLimitStatus :=
  let minuteCount := st.minuteVal.getD 0
  let hourCount := st.hourVal.getD 0
  let minuteTTL := redisTTL st.minuteVal st.minuteTTL
  let hourTTL := redisTTL st.hourVal st.hourTTL
  ⟨max 0 (prefs.maxPerMinute - (minuteCount : Int)),
    max 0 (prefs.maxPerHour - (hourCount : Int)),
    if 0 < minuteTTL then minuteTTL else 60,
    if 0 < hourTTL then hourTTL else 3600⟩

/-! ## Rate limiter: event sequences

A sequence of interactions with one session's keys inside one hour window:
each element is either a `checkAndRecord` call or the store-driven expiry
of the minute key (which deletes it).  The hour key never expires inside a
single hour window, and neither key expires inside a single minute window
(a minute-window sequence is one containing only `call` events). -/

/-- One event against a session's counters. -/
inductive RateEvent where
  | call
  | minuteExpire
deriving Repr, DecidableEq

/-- Run a sequence of events from a state, counting allowed results. -/
def runEvents (prefs : RateLimitPrefs) :
    List RateEvent → RedisCounters × Nat → RedisCounters × Nat
  | [], acc => acc
  | RateEvent.call :: evs, (st, n) =>
    runEvents prefs evs
      ((checkAndRecord st prefs).2,
        if (checkAndRecord st prefs).1.allowed then n + 1 else n)
  | RateEvent.minuteExpire :: evs, (st, n) =>
    runEvents prefs evs ({ st with minuteVal := none, minuteTTL := none }, n)

/-! ## Rate limiter: helper lemmas -/

/-- The call is allowed exactly when both pre-increment counts are strictly
below their caps. -/
lemma aux_allowed_iff (st : RedisCounters) (prefs : RateLimitPrefs) :
    (checkAndRecord st prefs).1.allowed = true ↔
      ((st.minuteVal.getD 0 : Int) < prefs.maxPerMinute ∧
        (st.hourVal.getD 0 : Int) < prefs.maxPerHour) := by
  unfold checkAndRecord rateLimitScript
  dsimp only
  split_ifs with h1 h2 <;> simp_all

/-- A denied call returns the state unchanged. -/
lemma aux_denied_state (st : RedisCounters) (prefs : RateLimitPrefs)
    (h : (checkAndRecord st prefs).1.allowed = false) :
    (checkAndRecord st prefs).2 = st := by
  unfold checkAndRecord rateLimitScript at h ⊢
  dsimp only at h ⊢
  split_ifs at h ⊢ with h1 h2 <;> simp_all

/-- An allowed call stores both counters incremented by one. -/
lemma aux_allowed_state (st : RedisCounters) (prefs : RateLimitPrefs)
    (h : (checkAndRecord st prefs).1.allowed = true) :
    (checkAndRecord st prefs).2.minuteVal = some (st.minuteVal.getD 0 + 1) ∧
      (checkAndRecord st prefs).2.hourVal = some (st.hourVal.getD 0 + 1) := by
  unfold checkAndRecord rateLimitScript at h ⊢
  dsimp only at h ⊢
  split_ifs at h ⊢ with h1 h2 <;> simp_all

/-- Hour-counter invariant along any event sequence: the hour count stays
at or below the cap, and grows by exactly the number of allowed calls. -/
lemma aux_hour_invariant (prefs : RateLimitPrefs) (evs : List RateEvent) :
    ∀ st n, (st.hourVal.getD 0 : Int) ≤ prefs.maxPerHour →
      ((runEvents prefs evs (st, n)).1.hourVal.getD 0 : Int) ≤ prefs.maxPerHour ∧
      (runEvents prefs evs (st, n)).2 + st.hourVal.getD 0
        = n + (runEvents prefs evs (st, n)).1.hourVal.getD 0 := by
  induction evs with
  | nil =>
    intro st n h
    exact ⟨h, rfl⟩
  | cons e evs ih =>
    intro st n h
    cases e with
    | call =>
      by_cases hall : (checkAndRecord st prefs).1.allowed = true
      · obtain ⟨hmv, hhv⟩ := aux_allowed_state st prefs hall
        have hlt := (aux_allowed_iff st prefs).mp hall
        have hst' : ((checkAndRecord st prefs).2.hourVal.getD 0 : Int)
            ≤ prefs.maxPerHour := by
          rw [hhv]
          simp only [Option.getD_some]
          omega
        have hrec := ih (checkAndRecord st prefs).2 (n + 1) hst'
        simp only [runEvents, hall, if_true]
        refine ⟨hrec.1, ?_⟩
        rw [hhv] at hrec
        simp only [Option.getD_some] at hrec
        omega
      · have hfalse : (checkAndRecord st prefs).1.allowed = false := by
          simpa using hall
        have hrec := ih st n h
        simp only [runEvents, hfalse, if_false, Bool.false_eq_true,
          aux_denied_state st prefs hfalse]
        exact hrec
    | minuteExpire =>
      have hrec := ih { st with minuteVal := none, minuteTTL := none } n (by simpa using h)
      simp only [runEvents]
      simpa using hrec

/-- Minute-counter invariant along a sequence of calls only (one minute
window, no expiry): the minute count stays at or below the cap and grows
by exactly the number of allowed calls. -/
lemma aux_minute_invariant (prefs : RateLimitPrefs) (evs : List RateEvent) :
    ∀ st n, (∀ e ∈ evs, e = RateEvent.call) →
      (st.minuteVal.getD 0 : Int) ≤ prefs.maxPerMinute →
      ((runEvents prefs evs (st, n)).1.minuteVal.getD 0 : Int) ≤ prefs.maxPerMinute ∧
      (runEvents prefs evs (st, n)).2 + st.minuteVal.getD 0
        = n + (runEvents prefs evs (st, n)).1.minuteVal.getD 0 := by
  induction evs with
  | nil =>
    intro st n _ h
    exact ⟨h, rfl⟩
  | cons e evs ih =>
    intro st n hcall h
    have he : e = RateEvent.call := hcall e (List.mem_cons_self e evs)
    subst he
    have hcall' : ∀ e ∈ evs, e = RateEvent.call := fun e he => hcall e (List.mem_cons_of_mem _ he)
    by_cases hall : (checkAndRecord st prefs).1.allowed = true
    · obtain ⟨hmv, hhv⟩ := aux_allowed_state st prefs hall
      have hlt := (aux_allowed_iff st prefs).mp hall
      have hst' : ((checkAndRecord st prefs).2.minuteVal.getD 0 : Int)
          ≤ prefs.maxPerMinute := by
        rw [hmv]
        simp only [Option.getD_some]
        omega
      have hrec := ih (checkAndRecord st prefs).2 (n + 1) hcall' hst'
      simp only [runEvents, hall, if_true]
      refine ⟨hrec.1, ?_⟩
      rw [hmv] at hrec
      simp only [Option.getD_some] at hrec
      omega
    · have hfalse : (checkAndRecord st prefs).1.allowed = false := by
        simpa using hall
      have hrec := ih st n hcall' h
      simp only [runEvents, hfalse, if_false, Bool.false_eq_true,
        aux_denied_state st prefs hfalse]
      exact hrec

/-! ## Claim theorems: rate limiter -/

/-- C1: for every sequence of `checkAndRecord` calls against one session
within a single hour window (the hour key never expires, the minute key
may), the number of allowed results never exceeds `maxPerHour`; within a
single minute window (calls only, no expiry) it never exceeds
`maxPerMinute`; and the stored counters change only when both
pre-increment counts are strictly below their caps. -/
theorem checkAndRecord_window_caps (prefs : RateLimitPrefs)
    (hm : 0 ≤ prefs.maxPerMinute) (hh : 0 ≤ prefs.maxPerHour)
    (evs : List RateEvent) :
    (((runEvents prefs evs (freshState, 0)).2 : Int) ≤ prefs.maxPerHour) ∧
    ((∀ e ∈ evs, e = RateEvent.call) →
      ((runEvents prefs evs (freshState, 0)).2 : Int) ≤ prefs.maxPerMinute) ∧
    (∀ st : RedisCounters, (checkAndRecord st prefs).2 ≠ st →
      (st.minuteVal.getD 0 : Int) < prefs.maxPerMinute ∧
      (st.hourVal.getD 0 : Int) < prefs.maxPerHour) := by
  refine ⟨?_, ?_, ?_⟩
  · obtain ⟨h1, h2⟩ := aux_hour_invariant prefs evs freshState 0 (by simpa [freshState] using hh)
    have h3 : freshState.hourVal.getD 0 = 0 := rfl
    rw [h3] at h2
    omega
  · intro hcall
    obtain ⟨h1, h2⟩ := aux_minute_invariant prefs evs freshState 0 hcall
      (by simpa [freshState] using hm)
    have h3 : freshState.minuteVal.getD 0 = 0 := rfl
    rw [h3] at h2
    omega
  · intro st hne
    by_cases hall : (checkAndRecord st prefs).1.allowed = true
    · exact (aux_allowed_iff st prefs).mp hall
    · exact absurd (aux_denied_state st prefs (by simpa using hall)) hne

/-- Witness for C1: with caps 2/min and 3/hour, three calls in one minute
window yield exactly 2 allowed results, within both caps. -/
theorem checkAndRecord_window_caps_witness :
    ((runEvents ⟨2, 3⟩ [RateEvent.call, RateEvent.call, RateEvent.call]
        (freshState, 0)).2 : Int) ≤ 3 ∧
    (runEvents ⟨2, 3⟩ [RateEvent.call, RateEvent.call, RateEvent.call]
        (freshState, 0)).2 = 2 :=
  ⟨(checkAndRecord_window_caps ⟨2, 3⟩ (by decide) (by decide)
      [RateEvent.call, RateEvent.call, RateEvent.call]).1, by decide⟩

/-- C2: a call that returns `allowed=false` leaves the stored state (both
counts and both TTLs) exactly as it was. -/
theorem checkAndRecord_deny_frame (st : RedisCounters) (prefs : RateLimitPrefs)
    (h : (checkAndRecord st prefs).1.allowed = false) :
    (checkAndRecord st prefs).2 = st :=
  aux_denied_state st prefs h

/-- Witness for C2: with a zero minute cap the first call is denied and the
state is returned untouched. -/
theorem checkAndRecord_deny_frame_witness :
    (checkAndRecord freshState ⟨0, 5⟩).1.allowed = false ∧
      (checkAndRecord freshState ⟨0, 5⟩).2 = freshState :=
  ⟨by decide, checkAndRecord_deny_frame freshState ⟨0, 5⟩ (by decide)⟩

/-- C3: the minute cap is checked strictly before the hour cap, so a call
whose counts reach both caps is denied as minute-exceeded; and every
denial reports the exceeded dimension's remaining as 0 while the other
dimension keeps its true value `max 0 (cap - count)`. -/
theorem checkAndRecord_deny_report (st : RedisCounters) (prefs : RateLimitPrefs)
    (h : (checkAndRecord st prefs).1.allowed = false) :
    ((prefs.maxPerMinute ≤ (st.minuteVal.getD 0 : Int) ∧
      prefs.maxPerHour ≤ (st.hourVal.getD 0 : Int)) →
        (checkAndRecord st prefs).1.exceededLimit = some ExceededLimit.minute) ∧
    ((checkAndRecord st prefs).1.exceededLimit = some ExceededLimit.minute →
      (checkAndRecord st prefs).1.remainingMinute = 0 ∧
      (checkAndRecord st prefs).1.remainingHour
        = max 0 (prefs.maxPerHour - (st.hourVal.getD 0 : Int))) ∧
    ((checkAndRecord st prefs).1.exceededLimit = some ExceededLimit.hour →
      (checkAndRecord st prefs).1.remainingHour = 0 ∧
      (checkAndRecord st prefs).1.remainingMinute
        = max 0 (prefs.maxPerMinute - (st.minuteVal.getD 0 : Int))) := by
  unfold checkAndRecord rateLimitScript at h ⊢
  dsimp only at h ⊢
  split_ifs at h ⊢ with h1 h2 <;> simp_all

/-- Witness for C3: counts at minute cap 5 and hour count 3 of cap 10 give
a minute-denial with remaining 0 / 7. -/
theorem checkAndRecord_deny_report_witness :
    (checkAndRecord ⟨some 5, some 30, some 3, some 100⟩ ⟨5, 10⟩).1.remainingMinute = 0 ∧
    (checkAndRecord ⟨some 5, some 30, some 3, some 100⟩ ⟨5, 10⟩).1.remainingHour
      = max 0 (10 - ((3 : Nat) : Int)) :=
  (checkAndRecord_deny_report ⟨some 5, some 30, some 3, some 100⟩ ⟨5, 10⟩
    (by decide)).2.1 (by decide)


/-- Exact result of `checkAndRecord` when the minute count has reached its
cap: denial, minute-exceeded, remaining minute forced to 0, hour remaining
at its true value, state untouched. -/
lemma aux_car_minuteExceeded (st : RedisCounters) (prefs : RateLimitPrefs)
    (h1 : prefs.maxPerMinute ≤ (st.minuteVal.getD 0 : Int)) :
    checkAndRecord st prefs =
      (⟨false, 0, max 0 (prefs.maxPerHour - (st.hourVal.getD 0 : Int)),
        if 0 < redisTTL st.minuteVal st.minuteTTL then
          redisTTL st.minuteVal st.minuteTTL else 60,
        if 0 < redisTTL st.hourVal st.hourTTL then
          redisTTL st.hourVal st.hourTTL else 3600,
        some ExceededLimit.minute⟩, st) := by
  unfold checkAndRecord rateLimitScript
  dsimp only
  rw [if_pos h1]
  norm_num

/-- Exact result of `checkAndRecord` when the minute count is under cap but
the hour count has reached its cap. -/
lemma aux_car_hourExceeded (st : RedisCounters) (prefs : RateLimitPrefs)
    (h1 : ¬ prefs.maxPerMinute ≤ (st.minuteVal.getD 0 : Int))
    (h2 : prefs.maxPerHour ≤ (st.hourVal.getD 0 : Int)) :
    checkAndRecord st prefs =
      (⟨false, max 0 (prefs.maxPerMinute - (st.minuteVal.getD 0 : Int)), 0,
        if 0 < redisTTL st.minuteVal st.minuteTTL then
          redisTTL st.minuteVal st.minuteTTL else 60,
        if 0 < redisTTL st.hourVal st.hourTTL then
          redisTTL st.hourVal st.hourTTL else 3600,
        some ExceededLimit.hour⟩, st) := by
  unfold checkAndRecord rateLimitScript
  dsimp only
  rw [if_neg h1, if_pos h2]
  norm_num

/-- Exact result of `checkAndRecord` when both counts are under their caps:
both counters are incremented and stored, TTLs are bootstrapped where they
were negative, and the remainings reflect the post-increment counts. -/
lemma aux_car_allowed (st : RedisCounters) (prefs : RateLimitPrefs)
    (h1 : ¬ prefs.maxPerMinute ≤ (st.minuteVal.getD 0 : Int))
    (h2 : ¬ prefs.maxPerHour ≤ (st.hourVal.getD 0 : Int)) :
    checkAndRecord st prefs =
      (⟨true,
        max 0 (prefs.maxPerMinute - ((st.minuteVal.getD 0 + 1 : Nat) : Int)),
        max 0 (prefs.maxPerHour - ((st.hourVal.getD 0 + 1 : Nat) : Int)),
        if 0 < redisTTL st.minuteVal st.minuteTTL then
          redisTTL st.minuteVal st.minuteTTL else 60,
        if 0 < redisTTL st.hourVal st.hourTTL then
          redisTTL st.hourVal st.hourTTL else 3600,
        none⟩,
       ⟨some (st.minuteVal.getD 0 + 1),
        if redisTTL st.minuteVal st.minuteTTL < 0 then some 60 else st.minuteTTL,
        some (st.hourVal.getD 0 + 1),
        if redisTTL st.hourVal st.hourTTL < 0 then some 3600 else st.hourTTL⟩) := by
  unfold checkAndRecord rateLimitScript
  dsimp only
  rw [if_neg h1, if_neg h2]
  dsimp only
  norm_num
  all_goals split_ifs <;> omega

/-- C8: after an allowed call, both reported remaining budgets — and the
remaining budgets a subsequent `getStatus` would report — are exactly one
less than `getStatus` reported immediately before the call. -/
theorem checkAndRecord_allowed_decrement (st : RedisCounters) (prefs : RateLimitPrefs)
    (h : (checkAndRecord st prefs).1.allowed = true) :
    (checkAndRecord st prefs).1.remainingMinute
      = (getStatus st prefs).remainingMinute - 1 ∧
    (checkAndRecord st prefs).1.remainingHour
      = (getStatus st prefs).remainingHour - 1 ∧
    (getStatus (checkAndRecord st prefs).2 prefs).remainingMinute
      = (getStatus st prefs).remainingMinute - 1 ∧
    (getStatus (checkAndRecord st prefs).2 prefs).remainingHour
      = (getStatus st prefs).remainingHour - 1 := by
  obtain ⟨hm, hh⟩ := (aux_allowed_iff st prefs).mp h
  rw [aux_car_allowed st prefs (by omega) (by omega)]
  unfold getStatus
  dsimp only
  refine ⟨?_, ?_, ?_, ?_⟩ <;>
    · first
      | (simp only [Option.getD_some]; push_cast; omega)
      | (push_cast; omega)

/-- Witness for C8: from counts 1/min and 4/hour with caps 5/10, an allowed
call drops the remaining budgets from 4 and 6 to 3 and 5. -/
theorem checkAndRecord_allowed_decrement_witness :
    (checkAndRecord ⟨some 1, some 30, some 4, some 100⟩ ⟨5, 10⟩).1.remainingMinute
      = (getStatus ⟨some 1, some 30, some 4, some 100⟩ ⟨5, 10⟩).remainingMinute - 1 ∧
    (checkAndRecord ⟨some 1, some 30, some 4, some 100⟩ ⟨5, 10⟩).1.remainingHour
      = (getStatus ⟨some 1, some 30, some 4, some 100⟩ ⟨5, 10⟩).remainingHour - 1 :=
  ⟨(checkAndRecord_allowed_decrement ⟨some 1, some 30, some 4, some 100⟩ ⟨5, 10⟩
      (by decide)).1,
    (checkAndRecord_allowed_decrement ⟨some 1, some 30, some 4, some 100⟩ ⟨5, 10⟩
      (by decide)).2.1⟩

/-- C9: when a counter key is absent, both `checkAndRecord` and `getStatus`
report the reset-in as the full window length (60 s / 3600 s). -/
theorem resetIn_defaults (st : RedisCounters) (prefs : RateLimitPrefs) :
    (st.minuteVal = none →
      (checkAndRecord st prefs).1.resetMinuteIn = 60 ∧
      (getStatus st prefs).resetMinuteIn = 60) ∧
    (st.hourVal = none →
      (checkAndRecord st prefs).1.resetHourIn = 3600 ∧
      (getStatus st prefs).resetHourIn = 3600) := by
  constructor
  · intro hmv
    have hraw : redisTTL st.minuteVal st.minuteTTL = -2 := by rw [hmv]; rfl
    by_cases c1 : prefs.maxPerMinute ≤ (st.minuteVal.getD 0 : Int)
    · rw [aux_car_minuteExceeded st prefs c1]
      unfold getStatus
      dsimp only
      rw [hraw]
      norm_num
    · by_cases c2 : prefs.maxPerHour ≤ (st.hourVal.getD 0 : Int)
      · rw [aux_car_hourExceeded st prefs c1 c2]
        unfold getStatus
        dsimp only
        rw [hraw]
        norm_num
      · rw [aux_car_allowed st prefs c1 c2]
        unfold getStatus
        dsimp only
        rw [hraw]
        norm_num
  · intro hhv
    have hraw : redisTTL st.hourVal st.hourTTL = -2 := by rw [hhv]; rfl
    by_cases c1 : prefs.maxPerMinute ≤ (st.minuteVal.getD 0 : Int)
    · rw [aux_car_minuteExceeded st prefs c1]
      unfold getStatus
      dsimp only
      rw [hraw]
      norm_num
    · by_cases c2 : prefs.maxPerHour ≤ (st.hourVal.getD 0 : Int)
      · rw [aux_car_hourExceeded st prefs c1 c2]
        unfold getStatus
        dsimp only
        rw [hraw]
        norm_num
      · rw [aux_car_allowed st prefs c1 c2]
        unfold getStatus
        dsimp only
        rw [hraw]
        norm_num

/-- Witness for C9: from the fresh state every reset-in is the full window
length. -/
theorem resetIn_defaults_witness :
    (checkAndRecord freshState ⟨5, 10⟩).1.resetMinuteIn = 60 ∧
    (getStatus freshState ⟨5, 10⟩).resetMinuteIn = 60 ∧
    (checkAndRecord freshState ⟨5, 10⟩).1.resetHourIn = 3600 ∧
    (getStatus freshState ⟨5, 10⟩).resetHourIn = 3600 :=
  ⟨((resetIn_defaults freshState ⟨5, 10⟩).1 rfl).1,
    ((resetIn_defaults freshState ⟨5, 10⟩).1 rfl).2,
    ((resetIn_defaults freshState ⟨5, 10⟩).2 rfl).1,
    ((resetIn_defaults freshState ⟨5, 10⟩).2 rfl).2⟩

/-! ## Quiet hours: data model

`QuietHoursService` computes the current local time by formatting the
wall-clock instant with `Intl.DateTimeFormat` in the user's timezone,
parses the configured strings with `split(':').map(Number)`, and compares
minutes-since-midnight with JS number semantics.  `Number(string)` follows
the StringNumericLiteral grammar: whitespace-trimmed, empty ⇒ 0,
`Infinity` with optional sign, optionally signed decimal literals with
fraction and exponent, unsigned `0x`/`0o`/`0b` radix literals, anything
else ⇒ `NaN`; every comparison involving `NaN` is false.  `JSNum` models
this with `nan`, `posInf`, `negInf` and exact finite values `m·10^e`
(`JSRat`).  Two declared approximations: values are kept exact instead of
being rounded to binary64 (visible only for literals beyond double
precision or range, which cannot affect the window logic at issue), and
the sign of zero is dropped (`0` and `-0` compare equal anyway). -/

/-- Severity levels (`NotificationSeverity` union in the source). -/
inductive NotificationSeverity where
  | low
  | warning
  | high
deriving Repr, DecidableEq

/-- `QuietHoursPrefs`; `none` models a `null` start/end. -/
structure QuietHoursPrefs where
  quietHoursEnabled : Bool
  quietHoursStart : Option String
  quietHoursEnd : Option String
  quietHoursTimezone : String
  quietHoursOverrideCritical : Bool
deriving Repr, DecidableEq

/-- `String.prototype.split(':')` over the character list (second argument
is the accumulator for the current piece, in reverse). -/
def splitColon : List Char → List Char → List (List Char)
  | [], acc => [acc.reverse]
  | c :: cs, acc =>
    if c = ':' then acc.reverse :: splitColon cs []
    else splitColon cs (c :: acc)

/-- JS `StrWhiteSpace` characters: WhiteSpace (TAB, VT, FF, SP, NBSP,
ZWNBSP and the Unicode Space_Separator category) and LineTerminator
(LF, CR, LS, PS). -/
def isJsWhitespace (c : Char) : Bool :=
  c.toNat = 0x9 || c.toNat = 0xA || c.toNat = 0xB || c.toNat = 0xC ||
  c.toNat = 0xD || c.toNat = 0x20 || c.toNat = 0xA0 || c.toNat = 0x1680 ||
  (0x2000 ≤ c.toNat && c.toNat ≤ 0x200A) ||
  c.toNat = 0x2028 || c.toNat = 0x2029 || c.toNat = 0x202F ||
  c.toNat = 0x205F || c.toNat = 0x3000 || c.toNat = 0xFEFF

/-- The whitespace trimming performed by JS `Number` coercion. -/
def jsTrim (cs : List Char) : List Char :=
  ((cs.dropWhile isJsWhitespace).reverse.dropWhile isJsWhitespace).reverse

/-- Value of a decimal-digit character list. -/
def decVal (ds : List Char) : Nat :=
  ds.foldl (fun a c => a * 10 + (c.toNat - 48)) 0

/-- Hex digit test for `0x` literals. -/
def isHexDigit (c : Char) : Bool :=
  c.isDigit || ('a' ≤ c && c ≤ 'f') || ('A' ≤ c && c ≤ 'F')

/-- Value of one hex digit. -/
def hexVal (c : Char) : Nat :=
  if c.isDigit then c.toNat - 48
  else if 'a' ≤ c && c ≤ 'f' then c.toNat - 87
  else c.toNat - 55

/-- Octal digit test for `0o` literals. -/
def isOctDigit (c : Char) : Bool := '0' ≤ c && c ≤ '7'

/-- Binary digit test for `0b` literals. -/
def isBinDigit (c : Char) : Bool := c = '0' || c = '1'

/-- An exact scaled-decimal value `m · 10 ^ e` — the value set denoted by
JS numeric string literals (radix literals have `e = 0`). -/
structure JSRat where
  m : Int
  e : Int
deriving Repr, DecidableEq

/-- The rational number a `JSRat` denotes. -/
def JSRat.toRat (x : JSRat) : ℚ := (x.m : ℚ) * (10 : ℚ) ^ x.e

/-- A JS number as produced by `Number(string)`. -/
inductive JSNum where
  | nan
  | posInf
  | negInf
  | val (x : JSRat)
deriving Repr, DecidableEq

/-- JS unary minus on a parsed number. -/
def jsNeg : JSNum → JSNum
  | JSNum.nan => JSNum.nan
  | JSNum.posInf => JSNum.negInf
  | JSNum.negInf => JSNum.posInf
  | JSNum.val x => JSNum.val ⟨-x.m, x.e⟩

/-- JS multiplication by the constant 60 (`hour * 60`). -/
def jsMul60 : JSNum → JSNum
  | JSNum.nan => JSNum.nan
  | JSNum.posInf => JSNum.posInf
  | JSNum.negInf => JSNum.negInf
  | JSNum.val x => JSNum.val ⟨x.m * 60, x.e⟩

/-- JS addition (`hour * 60 + minute`): `NaN` is absorbing, opposite
infinities give `NaN`, finite values are added exactly after scaling to
the common exponent. -/
def jsAdd : JSNum → JSNum → JSNum
  | JSNum.nan, _ => JSNum.nan
  | _, JSNum.nan => JSNum.nan
  | JSNum.posInf, JSNum.negInf => JSNum.nan
  | JSNum.negInf, JSNum.posInf => JSNum.nan
  | JSNum.posInf, _ => JSNum.posInf
  | _, JSNum.posInf => JSNum.posInf
  | JSNum.negInf, _ => JSNum.negInf
  | _, JSNum.negInf => JSNum.negInf
  | JSNum.val x, JSNum.val y =>
    let d := min x.e y.e
    JSNum.val ⟨x.m * 10 ^ (x.e - d).toNat + y.m * 10 ^ (y.e - d).toNat, d⟩

/-- Strict comparison of two finite values, by scaling both mantissas to
the smaller exponent. -/
def jsRatLt (x y : JSRat) : Bool :=
  let d := min x.e y.e
  decide (x.m * 10 ^ (x.e - d).toNat < y.m * 10 ^ (y.e - d).toNat)

/-- Non-strict comparison of two finite values. -/
def jsRatLe (x y : JSRat) : Bool :=
  let d := min x.e y.e
  decide (x.m * 10 ^ (x.e - d).toNat ≤ y.m * 10 ^ (y.e - d).toNat)

/-- JS `<`: false whenever `NaN` is involved, infinities ordered below and
above every finite value. -/
def jsLt : JSNum → JSNum → Bool
  | JSNum.nan, _ => false
  | _, JSNum.nan => false
  | JSNum.posInf, _ => false
  | JSNum.negInf, JSNum.negInf => false
  | JSNum.negInf, _ => true
  | JSNum.val _, JSNum.posInf => true
  | JSNum.val _, JSNum.negInf => false
  | JSNum.val x, JSNum.val y => jsRatLt x y

/-- JS `<=`: false whenever `NaN` is involved. -/
def jsLe : JSNum → JSNum → Bool
  | JSNum.nan, _ => false
  | _, JSNum.nan => false
  | JSNum.negInf, _ => true
  | _, JSNum.posInf => true
  | JSNum.posInf, _ => false
  | JSNum.val _, JSNum.negInf => false
  | JSNum.val x, JSNum.val y => jsRatLe x y

@[simp] lemma jsLt_nan_left (x : JSNum) : jsLt JSNum.nan x = false := by
  cases x <;> rfl

@[simp] lemma jsLt_nan_right (x : JSNum) : jsLt x JSNum.nan = false := by
  cases x <;> rfl

@[simp] lemma jsLe_nan_left (x : JSNum) : jsLe JSNum.nan x = false := by
  cases x <;> rfl

@[simp] lemma jsLe_nan_right (x : JSNum) : jsLe x JSNum.nan = false := by
  cases x <;> rfl

@[simp] lemma jsLt_val_val (x y : JSRat) :
    jsLt (JSNum.val x) (JSNum.val y) = jsRatLt x y := rfl

@[simp] lemma jsLe_val_val (x y : JSRat) :
    jsLe (JSNum.val x) (JSNum.val y) = jsRatLe x y := rfl

/-- The exponent part of a decimal literal: optionally signed digits,
which must consume the whole remaining input. -/
def parseSignedDigits : List Char → Option Int
  | '+' :: ds =>
    if ds ≠ [] ∧ ds.all Char.isDigit then some (decVal ds : Int) else none
  | '-' :: ds =>
    if ds ≠ [] ∧ ds.all Char.isDigit then some (-(decVal ds : Int)) else none
  | ds =>
    if ds ≠ [] ∧ ds.all Char.isDigit then some (decVal ds : Int) else none

/-- `ExponentPart?` at the end of a decimal literal: empty input means
exponent 0, `e`/`E` followed by signed digits, anything else fails. -/
def parseExpPart : List Char → Option Int
  | [] => some 0
  | 'e' :: rest => parseSignedDigits rest
  | 'E' :: rest => parseSignedDigits rest
  | _ => none

/-- `StrUnsignedDecimalLiteral` without `Infinity`:
`DecimalDigits . DecimalDigits? ExponentPart?`, `. DecimalDigits
ExponentPart?` or `DecimalDigits ExponentPart?`, whole-input match,
evaluated exactly as a scaled decimal. -/
def parseDecLit (cs : List Char) : Option JSRat :=
  let ip := cs.takeWhile Char.isDigit
  let rest1 := cs.dropWhile Char.isDigit
  match rest1 with
  | '.' :: rest2 =>
    let fp := rest2.takeWhile Char.isDigit
    let rest3 := rest2.dropWhile Char.isDigit
    if ip = [] ∧ fp = [] then none
    else
      (parseExpPart rest3).map (fun ex =>
        ⟨(decVal ip : Int) * (10 : Int) ^ fp.length + (decVal fp : Int),
          ex - fp.length⟩)
  | _ =>
    if ip = [] then none
    else (parseExpPart rest1).map (fun ex => ⟨(decVal ip : Int), ex⟩)

/-- An unsigned radix (`0x`/`0o`/`0b`) literal body: non-empty digits of
the given radix, whole-input match. -/
def parseRadix (isD : Char → Bool) (v : Char → Nat) (base : Nat)
    (cs : List Char) : Option JSRat :=
  if cs ≠ [] ∧ cs.all isD then
    some ⟨(cs.foldl (fun a c => a * base + v c) 0 : Nat), 0⟩
  else none

/-- `StrUnsignedDecimalLiteral`: `Infinity` or a decimal literal. -/
def parseUnsignedNum (cs : List Char) : Option JSNum :=
  if cs = "Infinity".toList then some JSNum.posInf
  else (parseDecLit cs).map JSNum.val

/-- `StrNumericLiteral`: an unsigned radix literal (no sign allowed), or
an optionally signed decimal/`Infinity` literal. -/
def parseStrNumeric : List Char → Option JSNum
  | '0' :: 'x' :: rest => (parseRadix isHexDigit hexVal 16 rest).map JSNum.val
  | '0' :: 'X' :: rest => (parseRadix isHexDigit hexVal 16 rest).map JSNum.val
  | '0' :: 'o' :: rest =>
    (parseRadix isOctDigit (fun c => c.toNat - 48) 8 rest).map JSNum.val
  | '0' :: 'O' :: rest =>
    (parseRadix isOctDigit (fun c => c.toNat - 48) 8 rest).map JSNum.val
  | '0' :: 'b' :: rest =>
    (parseRadix isBinDigit (fun c => c.toNat - 48) 2 rest).map JSNum.val
  | '0' :: 'B' :: rest =>
    (parseRadix isBinDigit (fun c => c.toNat - 48) 2 rest).map JSNum.val
  | '+' :: rest => parseUnsignedNum rest
  | '-' :: rest => (parseUnsignedNum rest).map jsNeg
  | t => parseUnsignedNum t

/-- JS `Number(string)`: trim `StrWhiteSpace`; an empty remainder coerces
to 0; otherwise the whole remainder must match `StrNumericLiteral`, else
the result is `NaN`. -/
def jsNumber (cs : List Char) : JSNum :=
  match jsTrim cs with
  | [] => JSNum.val ⟨0, 0⟩
  | t =>
    match parseStrNumeric t with
    | some v => v
    | none => JSNum.nan

/-- `str.split(':').map(Number)` destructured as `[hour, minute]` and
reduced to `hour * 60 + minute`: with fewer than two pieces the minute is
`undefined` and poisons the arithmetic to `NaN`. -/
def timeToMinutes (s : String) : JSNum :=
  match splitColon s.toList [] with
  | [] => JSNum.nan
  | [_] => JSNum.nan
  | h :: m :: _ => jsAdd (jsMul60 (jsNumber h)) (jsNumber m)

/-- Scaling a mantissa from exponent `e` down to a smaller exponent `d`
preserves the denoted rational, once the balancing `10 ^ d` is applied. -/
lemma aux_scale_one (m e d : Int) (hd : d ≤ e) :
    ((m * 10 ^ (e - d).toNat : Int) : ℚ) * (10 : ℚ) ^ d
      = (m : ℚ) * (10 : ℚ) ^ e := by
  push_cast
  rw [mul_assoc]
  congr 1
  rw [← zpow_natCast (10 : ℚ) (e - d).toNat,
    ← zpow_add₀ (by norm_num : (10 : ℚ) ≠ 0)]
  congr 1
  omega

/-- The executable strict comparison agrees with the denoted order. -/
lemma jsRatLt_iff (x y : JSRat) :
    jsRatLt x y = true ↔ x.toRat < y.toRat := by
  unfold jsRatLt JSRat.toRat
  dsimp only
  rw [decide_eq_true_eq]
  have hpos : (0 : ℚ) < (10 : ℚ) ^ (min x.e y.e) := by positivity
  have key :
      ((x.m * 10 ^ (x.e - min x.e y.e).toNat : Int) : ℚ)
          < ((y.m * 10 ^ (y.e - min x.e y.e).toNat : Int) : ℚ) ↔
        (x.m : ℚ) * (10 : ℚ) ^ x.e < (y.m : ℚ) * (10 : ℚ) ^ y.e := by
    rw [← aux_scale_one x.m x.e (min x.e y.e) (min_le_left _ _),
      ← aux_scale_one y.m y.e (min x.e y.e) (min_le_right _ _)]
    exact (mul_lt_mul_right hpos).symm
  exact Int.cast_lt.symm.trans key

/-- The executable non-strict comparison agrees with the denoted order. -/
lemma jsRatLe_iff (x y : JSRat) :
    jsRatLe x y = true ↔ x.toRat ≤ y.toRat := by
  unfold jsRatLe JSRat.toRat
  dsimp only
  rw [decide_eq_true_eq]
  have hpos : (0 : ℚ) < (10 : ℚ) ^ (min x.e y.e) := by positivity
  have key :
      ((x.m * 10 ^ (x.e - min x.e y.e).toNat : Int) : ℚ)
          ≤ ((y.m * 10 ^ (y.e - min x.e y.e).toNat : Int) : ℚ) ↔
        (x.m : ℚ) * (10 : ℚ) ^ x.e ≤ (y.m : ℚ) * (10 : ℚ) ^ y.e := by
    rw [← aux_scale_one x.m x.e (min x.e y.e) (min_le_left _ _),
      ← aux_scale_one y.m y.e (min x.e y.e) (min_le_right _ _)]
    exact (mul_le_mul_right hpos).symm
  exact Int.cast_le.symm.trans key

/-- The ambient clock as the quiet-hours code observes it:
`format tz` is `Intl.DateTimeFormat('en-US', {..., timeZone: tz}).format(now)`,
with `none` modelling the exception thrown on an unrecognized timezone;
`utcFormat` is the same formatting with `timeZone: 'UTC'` from the catch
branch, which always succeeds. -/
structure Clock where
  format : String → Option String
  utcFormat : String

/-- `prefs.quietHoursTimezone || 'UTC'`: the empty string is falsy. -/
def resolvedTimezone (prefs : QuietHoursPrefs) : String :=
  if prefs.quietHoursTimezone = "" then "UTC" else prefs.quietHoursTimezone

/-- The `userTime` string: formatting in the user's timezone, falling back
to UTC formatting when the formatter throws. -/
def userTimeString (prefs : QuietHoursPrefs) (clock : Clock) : String :=
  match clock.format (resolvedTimezone prefs) with
  | some u => u
  | none => clock.utcFormat

/-- `QuietHoursService.isQuietTime` after the `userTime` string has been
obtained: guard on enabled and on start/end (JS truthiness: `null` and the
empty string are both falsy), reduce all three times to minutes, then the
midnight-crossing (`start > end`) or same-day window check, boundaries
inclusive, all comparisons with JS `NaN` semantics. -/
def isQuietTimeAt (prefs : QuietHoursPrefs) (userTime : String) : Bool :=
  if prefs.quietHoursEnabled = false then false
  else
    match prefs.quietHoursStart, prefs.quietHoursEnd with
    | some s, some e =>
      if s = "" || e = "" then false
      else
        let currentMinutes := timeToMinutes userTime
        let startMinutes := timeToMinutes s
        let endMinutes := timeToMinutes e
        if jsLt endMinutes startMinutes then
          jsLe startMinutes currentMinutes || jsLe currentMinutes endMinutes
        else
          jsLe startMinutes currentMinutes && jsLe currentMinutes endMinutes
    | _, _ => false

/-- `QuietHoursService.isQuietTime`. -/
def isQuietTime (prefs : QuietHoursPrefs) (clock : Clock) : Bool :=
  isQuietTimeAt prefs (userTimeString prefs clock)

/-- `QuietHoursService.shouldSend`. -/
def shouldSend (prefs : QuietHoursPrefs) (severity : NotificationSeverity)
    (clock : Clock) : Bool :=
  if isQuietTime prefs clock = false then true
  else if prefs.quietHoursOverrideCritical = true ∧
      severity = NotificationSeverity.high then true
  else false

/-- Lifecycle event types accepted by `shouldSendEvent`. -/
inductive LifecycleEvent where
  | session_started
  | session_stopped
  | server_down
  | server_up
deriving Repr, DecidableEq

/-- `QuietHoursService.shouldSendEvent`: `server_down` is treated as high
severity, every other event as low. -/
def shouldSendEvent (prefs : QuietHoursPrefs) (ev : LifecycleEvent)
    (clock : Clock) : Bool :=
  if ev = LifecycleEvent.server_down then
    shouldSend prefs NotificationSeverity.high clock
  else
    shouldSend prefs NotificationSeverity.low clock

/-- The fixed event-to-severity mapping (`server_down` is critical, the
rest are low), stated once so `shouldSendEvent` can be compared against
`shouldSend` of the mapped severity. -/
def eventSeverity (ev : LifecycleEvent) : NotificationSeverity :=
  if ev = LifecycleEvent.server_down then NotificationSeverity.high
  else NotificationSeverity.low

/-- A clock whose formatted local time is the same fixed string in every
timezone; enough for concrete evaluations. -/
def constClock (s : String) : Clock := ⟨fun _ => some s, s⟩

/-- Modelled from the claim's words "parseable as HH:MM": two decimal-digit
fields separated by one colon, denoting a valid time of day (hours 0–23,
minutes 0–59). -/
def isHHMM (s : String) : Bool :=
  match splitColon s.toList [] with
  | [h, m] =>
    !h.isEmpty && h.all Char.isDigit && !m.isEmpty && m.all Char.isDigit &&
    decide (decVal h ≤ 23) && decide (decVal m ≤ 59)
  | _ => false

/-- When all three times parse to finite values, `isQuietTime` is the
window classification on the denoted minutes: midnight-crossing exactly
when `end < start`, both boundaries inclusive. -/
lemma aux_quiet_classification (prefs : QuietHoursPrefs) (clock : Clock)
    (s e : String) (sv ev cv : JSRat)
    (hen : prefs.quietHoursEnabled = true)
    (hs : prefs.quietHoursStart = some s)
    (he : prefs.quietHoursEnd = some e)
    (hsne : s ≠ "") (hene : e ≠ "")
    (hps : timeToMinutes s = JSNum.val sv)
    (hpe : timeToMinutes e = JSNum.val ev)
    (hpc : timeToMinutes (userTimeString prefs clock) = JSNum.val cv) :
    (isQuietTime prefs clock = true ↔
      (if ev.toRat < sv.toRat then
        (sv.toRat ≤ cv.toRat ∨ cv.toRat ≤ ev.toRat)
      else (sv.toRat ≤ cv.toRat ∧ cv.toRat ≤ ev.toRat))) := by
  unfold isQuietTime isQuietTimeAt
  rw [hen, hs, he]
  norm_num [hsne, hene]
  rw [hps, hpe, hpc]
  simp only [jsLt_val_val, jsLe_val_val]
  by_cases hc : ev.toRat < sv.toRat
  · rw [if_pos ((jsRatLt_iff ev sv).mpr hc), if_pos hc]
    simp [jsRatLe_iff]
  · rw [if_neg (fun hb => hc ((jsRatLt_iff ev sv).mp hb)), if_neg hc]
    simp [jsRatLe_iff]

/-! ## Claim theorems: quiet hours -/

/-- C4: with quiet hours enabled and both bounds present and parsing to
finite values, `isQuietTime` classifies by the denoted minutes-since-
midnight — a midnight-crossing window (`start > end`) is quiet iff
`current ≥ start` or `current ≤ end`, a same-day window iff
`start ≤ current ≤ end`, both boundaries inclusive; in particular for
23:00–07:00 local times 23:30 and 06:59 are quiet and 12:00 is not. -/
theorem isQuietTime_window_semantics :
    (∀ (prefs : QuietHoursPrefs) (clock : Clock) (s e : String)
      (sv ev cv : JSRat),
      prefs.quietHoursEnabled = true →
      prefs.quietHoursStart = some s →
      prefs.quietHoursEnd = some e →
      s ≠ "" → e ≠ "" →
      timeToMinutes s = JSNum.val sv →
      timeToMinutes e = JSNum.val ev →
      timeToMinutes (userTimeString prefs clock) = JSNum.val cv →
      (isQuietTime prefs clock = true ↔
        (if ev.toRat < sv.toRat then
          (sv.toRat ≤ cv.toRat ∨ cv.toRat ≤ ev.toRat)
        else (sv.toRat ≤ cv.toRat ∧ cv.toRat ≤ ev.toRat)))) ∧
    isQuietTime ⟨true, some "23:00", some "07:00", "UTC", false⟩
      (constClock "23:30") = true ∧
    isQuietTime ⟨true, some "23:00", some "07:00", "UTC", false⟩
      (constClock "06:59") = true ∧
    isQuietTime ⟨true, some "23:00", some "07:00", "UTC", false⟩
      (constClock "12:00") = false := by
  refine ⟨?_, by decide, by decide, by decide⟩
  intro prefs clock s e sv ev cv hen hs he hsne hene hps hpe hpc
  exact aux_quiet_classification prefs clock s e sv ev cv hen hs he hsne hene
    hps hpe hpc

/-- Witness for C4: the same-day window 01:00–06:00 contains 03:00. -/
theorem isQuietTime_window_semantics_witness :
    isQuietTime ⟨true, some "01:00", some "06:00", "UTC", false⟩
      (constClock "03:00") = true :=
  (isQuietTime_window_semantics.1 ⟨true, some "01:00", some "06:00", "UTC", false⟩
      (constClock "03:00") "01:00" "06:00" ⟨60, 0⟩ ⟨360, 0⟩ ⟨180, 0⟩ rfl rfl rfl
      (by decide) (by decide) (by decide) (by decide) (by decide)).mpr
    (by norm_num [JSRat.toRat])

/-- C5: outside quiet time `shouldSend` is always true; during quiet time
it is true exactly when `overrideCritical` is set and the severity is
`high` (so `warning` never bypasses); and `shouldSendEvent` is `shouldSend`
after the fixed mapping `server_down → high`, every other event `→ low`. -/
theorem shouldSend_severity_policy (prefs : QuietHoursPrefs) (clock : Clock)
    (severity : NotificationSeverity) :
    (isQuietTime prefs clock = false → shouldSend prefs severity clock = true) ∧
    (isQuietTime prefs clock = true →
      (shouldSend prefs severity clock = true ↔
        (prefs.quietHoursOverrideCritical = true ∧
          severity = NotificationSeverity.high))) ∧
    (isQuietTime prefs clock = true →
      shouldSend prefs NotificationSeverity.warning clock = false) ∧
    (∀ ev : LifecycleEvent,
      shouldSendEvent prefs ev clock = shouldSend prefs (eventSeverity ev) clock) ∧
    eventSeverity LifecycleEvent.server_down = NotificationSeverity.high ∧
    eventSeverity LifecycleEvent.session_started = NotificationSeverity.low ∧
    eventSeverity LifecycleEvent.session_stopped = NotificationSeverity.low ∧
    eventSeverity LifecycleEvent.server_up = NotificationSeverity.low := by
  refine ⟨?_, ?_, ?_, ?_, rfl, rfl, rfl, rfl⟩
  · intro h
    unfold shouldSend
    rw [h]
    simp
  · intro h
    unfold shouldSend
    rw [h]
    split_ifs with hov <;> simp_all
  · intro h
    unfold shouldSend
    rw [h]
    simp
  · intro ev
    cases ev <;> rfl

/-- Witness for C5: during the quiet window 23:00–07:00 at 23:30 with
`overrideCritical` set, a `high` notification is sent. -/
theorem shouldSend_severity_policy_witness :
    shouldSend ⟨true, some "23:00", some "07:00", "UTC", true⟩
      NotificationSeverity.high (constClock "23:30") = true :=
  ((shouldSend_severity_policy ⟨true, some "23:00", some "07:00", "UTC", true⟩
      (constClock "23:30") NotificationSeverity.high).2.1 (by decide)).mpr ⟨rfl, rfl⟩

/-- C7 counterexample: `"0x17:00"` is not parseable as `HH:MM`, yet quiet
hours with it as the start bound do not behave as disabled — JS `Number`
parses the hex spelling to 23, so the window is a real 23:00–07:00 window
and `isQuietTime` is `true` at local 23:30, where the claim demands
`false`. -/
theorem isQuietTime_malformed_counterexample :
    isHHMM "0x17:00" = false ∧
    isQuietTime ⟨true, some "0x17:00", some "07:00", "UTC", false⟩
      (constClock "23:30") = true := by decide

/-- C7 (amended): configuration errors never hard-fail the evaluator —
when the formatter rejects the resolved timezone, `isQuietTime` evaluates
exactly as if formatting with UTC (and still returns a boolean, by
totality); and when either bound string's `Number` coercion is `NaN`
(rather than: is not parseable as `HH:MM`), every window comparison is
false and `isQuietTime` returns false, i.e. quiet hours act as disabled. -/
theorem isQuietTime_config_errors (prefs : QuietHoursPrefs) (clock : Clock) :
    (clock.format (resolvedTimezone prefs) = none →
      isQuietTime prefs clock = isQuietTimeAt prefs clock.utcFormat) ∧
    (∀ s e : String, prefs.quietHoursStart = some s →
      prefs.quietHoursEnd = some e →
      timeToMinutes s = JSNum.nan ∨ timeToMinutes e = JSNum.nan →
      isQuietTime prefs clock = false) := by
  constructor
  · intro h
    unfold isQuietTime userTimeString
    rw [h]
  · intro s e hs he hbad
    unfold isQuietTime isQuietTimeAt
    rw [hs, he]
    dsimp only
    rcases hbad with hb | hb <;> rw [hb] <;> split_ifs <;> simp_all

/-- Witness for C7: an unrecognized timezone falls back to the UTC-formatted
time, and a start string whose `Number` coercion is `NaN` disables quiet
hours. -/
theorem isQuietTime_config_errors_witness :
    isQuietTime ⟨true, some "23:00", some "07:00", "Mars/Olympus", false⟩
        ⟨fun _ => none, "23:30"⟩
      = isQuietTimeAt ⟨true, some "23:00", some "07:00", "Mars/Olympus", false⟩
          "23:30" ∧
    isQuietTime ⟨true, some "banana", some "07:00", "UTC", false⟩
      (constClock "12:00") = false :=
  ⟨(isQuietTime_config_errors ⟨true, some "23:00", some "07:00", "Mars/Olympus", false⟩
      ⟨fun _ => none, "23:30"⟩).1 rfl,
    (isQuietTime_config_errors ⟨true, some "banana", some "07:00", "UTC", false⟩
      (constClock "12:00")).2 "banana" "07:00" rfl rfl (Or.inl (by decide))⟩

/-- C10: when quiet hours are enabled with `start = end` parsing to a
finite value, the same-day branch applies and the window is that single
inclusive minute: quiet exactly when the current minutes equal it. -/
theorem isQuietTime_pointWindow (prefs : QuietHoursPrefs) (clock : Clock)
    (s : String) (m cv : JSRat)
    (hen : prefs.quietHoursEnabled = true)
    (hs : prefs.quietHoursStart = some s)
    (he : prefs.quietHoursEnd = some s)
    (hne : s ≠ "")
    (hm : timeToMinutes s = JSNum.val m)
    (hc : timeToMinutes (userTimeString prefs clock) = JSNum.val cv) :
    (isQuietTime prefs clock = true ↔ cv.toRat = m.toRat) := by
  rw [aux_quiet_classification prefs clock s s m m cv hen hs he hne hne hm hm hc]
  rw [if_neg (lt_irrefl m.toRat)]
  constructor
  · intro h
    exact le_antisymm h.2 h.1
  · intro h
    rw [h]
    exact ⟨le_refl _, le_refl _⟩

/-- Witness for C10: the degenerate window 22:00–22:00 is quiet at exactly
22:00 and not one minute later. -/
theorem isQuietTime_pointWindow_witness :
    isQuietTime ⟨true, some "22:00", some "22:00", "UTC", false⟩
      (constClock "22:00") = true ∧
    isQuietTime ⟨true, some "22:00", some "22:00", "UTC", false⟩
      (constClock "22:01") = false :=
  ⟨(isQuietTime_pointWindow ⟨true, some "22:00", some "22:00", "UTC", false⟩
      (constClock "22:00") "22:00" ⟨1320, 0⟩ ⟨1320, 0⟩ rfl rfl rfl (by decide)
      (by decide) (by decide)).mpr rfl,
    by decide⟩
